import Mathlib

/-!
Shallow embedding of the presentation-transformation pipeline of the
rent-brigade-streamlit repository (`src/listing_display.py`,
`src/map_display.py`, `src/app.py`), together with proofs settling the
frozen claims about its specification.

Modelling conventions:
* Python strings are modelled as lists of Unicode code points (`PyStr`);
  the case-mapping functions (`str.lower`, `str.title`) are modelled on the
  ASCII letter ranges, which covers all data handled by the repository.
* Python numbers (ints and floats) are modelled as exact decimal values
  `m / 10 ^ e` (`Val.vNum m e`).  The repository only formats numbers with
  `%.0f`-style format specifiers, whose CPython semantics is correct
  rounding with ties to even; the concrete values appearing in the claims
  (1234.5, 0.8032) behave identically under the exact-decimal model and
  under binary floating point, which was checked by hand.
* `None` / `NaN` ("absent" values, `pd.isna`) are modelled by `Val.vNull`.
* Code that can raise a Python exception is modelled in the `Except String`
  monad; the error string names the Python exception class.
* `pandas.DataFrame` objects are modelled as a list of column names plus a
  list of association-list rows (`DataFrame`).
-/

/-- Python string: a list of Unicode code points. -/
abbrev PyStr := List Nat

/-- Code points of a Lean string literal, used to write `PyStr` constants. -/
def codes (s : String) : PyStr := s.data.map Char.toNat

/-- ASCII letter test, the `cased character` test relevant to `str.title`
for the ASCII data handled by this repository. -/
def isAlphaCode (n : Nat) : Bool :=
  decide ((65 ≤ n ∧ n ≤ 90) ∨ (97 ≤ n ∧ n ≤ 122))

/-- ASCII lower-casing of one code point (`str.lower` per character). -/
def lowerCode (n : Nat) : Nat := if 65 ≤ n ∧ n ≤ 90 then n + 32 else n

/-- ASCII upper-casing of one code point. -/
def upperCode (n : Nat) : Nat := if 97 ≤ n ∧ n ≤ 122 then n - 32 else n

/-- Python `str.lower`. -/
def pyLower (s : PyStr) : PyStr := s.map lowerCode

/-- Worker for `str.title`: the boolean records whether the previous
character was a letter (i.e. whether we are inside a word). -/
def pyTitleAux : Bool → List Nat → List Nat
  | _, [] => []
  | prevAlpha, c :: cs =>
    if isAlphaCode c then
      (if prevAlpha then lowerCode c else upperCode c) :: pyTitleAux true cs
    else
      c :: pyTitleAux false cs

/-- Python `str.title`: first letter of every word upper-cased, the
remaining letters lower-cased; word boundaries are non-letter characters. -/
def pyTitle (s : PyStr) : PyStr := pyTitleAux false s

/-- A Python scalar value as it occurs in the repository's data frames:
absent (`None`/`NaN`), a number (the exact decimal `m / 10 ^ e`), or a
string. -/
inductive Val where
  | vNull : Val
  | vNum (m : Int) (e : Nat) : Val
  | vStr (s : PyStr) : Val
deriving DecidableEq

/-- `pd.isna` on a scalar. -/
def pdIsna : Val → Bool
  | .vNull => true
  | _ => false

/-- Decimal digits of `n`, least significant first (`0` gives `[0]`).
The first argument is fuel; `n + 1` steps always suffice. -/
def natDigitsAux : Nat → Nat → List Nat
  | 0, _ => []
  | fuel + 1, n => if n < 10 then [n] else n % 10 :: natDigitsAux fuel (n / 10)

/-- Decimal digits of `n`, least significant first. -/
def natDigitsLSD (n : Nat) : List Nat := natDigitsAux (n + 1) n

/-- Insert the comma code point (44) after every three digits, on a
least-significant-first list of digit code points: the thousands grouping
of Python's `,` format flag. -/
def insertCommasLSD : List Nat → List Nat
  | d1 :: d2 :: d3 :: d4 :: rest => d1 :: d2 :: d3 :: 44 :: insertCommasLSD (d4 :: rest)
  | l => l

/-- Decimal rendering of `n`, most significant digit first, with optional
thousands grouping. -/
def natGroup (n : Nat) (grouped : Bool) : PyStr :=
  let ds := (natDigitsLSD n).map (· + 48)
  (if grouped then insertCommasLSD ds else ds).reverse

/-- Python `str` of an `int` (no grouping; `-` sign when negative). -/
def intCodes (n : Int) : PyStr :=
  if n < 0 then 45 :: natGroup n.natAbs false else natGroup n.natAbs false

/-- CPython `format(x, '.0f')` / `format(x, ',.0f')` of the exact decimal
`m / 10 ^ e`: correct rounding to an integer with ties to even, rendered
with an optional thousands separator.  A negative value rounding to zero
keeps its sign (CPython prints `-0`). -/
def fmtFixed0 (m : Int) (e : Nat) (grouped : Bool) : PyStr :=
  let d : Int := (10 : Int) ^ e
  let f : Int := m / d
  let r2 : Int := 2 * (m - f * d)
  let r : Int := if r2 < d then f else if d < r2 then f + 1
                 else if f % 2 = 0 then f else f + 1
  let mag := natGroup r.natAbs grouped
  if r < 0 ∨ (r = 0 ∧ m < 0) then 45 :: mag else mag

/-- ASCII decimal digit test. -/
def isDigitCode (n : Nat) : Bool := decide (48 ≤ n ∧ n ≤ 57)

/-- Numeric value of a list of decimal digit code points. -/
def digitsToNat (ds : List Nat) : Nat := ds.foldl (fun acc d => 10 * acc + (d - 48)) 0

/-- Whitespace code points stripped by Python's `int()`/`float()`. -/
def isSpaceCode (n : Nat) : Bool := decide (n = 32 ∨ n = 9 ∨ n = 10 ∨ n = 13)

/-- Strip leading and trailing whitespace. -/
def stripWS (s : PyStr) : PyStr :=
  ((s.dropWhile isSpaceCode).reverse.dropWhile isSpaceCode).reverse

/-- Split an optional leading sign (`+`/`-`); returns (negative?, rest). -/
def splitSign : PyStr → Bool × PyStr
  | 43 :: rest => (false, rest)
  | 45 :: rest => (true, rest)
  | s => (false, s)

/-- Python `int(str)`: optional surrounding whitespace, optional sign, then
one or more decimal digits.  (Underscore digit separators are not
modelled; no value in this repository uses them.)  `none` models a raised
`ValueError`. -/
def parseIntStr (s : PyStr) : Option Int :=
  let (neg, body) := splitSign (stripWS s)
  if body ≠ [] ∧ body.all isDigitCode then
    let n : Int := Int.ofNat (digitsToNat body)
    some (if neg then -n else n)
  else none

/-- Python `float(str)` restricted to plain decimal literals
(`[+-]? digits [. digits]` with at least one digit): returns the exact
decimal as `(mantissa, exponent)`.  Exponent notation, `inf` and `nan`
are not modelled; no value in this repository uses them.  `none` models a
raised `ValueError`. -/
def parseFloatStr (s : PyStr) : Option (Int × Nat) :=
  let (neg, body) := splitSign (stripWS s)
  let ip := body.takeWhile isDigitCode
  let rest := body.dropWhile isDigitCode
  let signed : Nat → Int := fun n => if neg then -(Int.ofNat n) else Int.ofNat n
  match rest with
  | [] => if ip ≠ [] then some (signed (digitsToNat ip), 0) else none
  | 46 :: fp =>
    if fp.all isDigitCode ∧ (ip ≠ [] ∨ fp ≠ []) then
      some (signed (digitsToNat (ip ++ fp)), fp.length)
    else none
  | _ => none

/-- Python `float(value)` on a scalar: numbers pass through, strings are
parsed.  `none` models a raised exception. -/
def pyFloat : Val → Option (Int × Nat)
  | .vNum m e => some (m, e)
  | .vStr s => parseFloatStr s
  | .vNull => none

/-- Python `int(value)` on a scalar: floats truncate toward zero, strings
must be integer literals.  `none` models a raised exception. -/
def pyInt : Val → Option Int
  | .vNum m e =>
    let d : Int := (10 : Int) ^ e
    some (if 0 ≤ m then m / d else -((-m) / d))
  | .vStr s => parseIntStr s
  | .vNull => none

/-- Python `str(value)` on a scalar.  Numbers are rendered from the exact
decimal: sign, integer digits, then the fractional digits with trailing
zeros trimmed (for values with no fractional part just the integer digits
are produced; the `.0` suffix CPython prints for integral floats is not
modelled — no claim inspects that case). -/
def pyStrOf : Val → PyStr
  | .vStr s => s
  | .vNull => codes "nan"
  | .vNum m e =>
    let d : Nat := 10 ^ e
    let mag := m.natAbs
    let ipart := natGroup (mag / d) false
    let fracLSD := (natDigitsLSD (mag % d) ++ List.replicate e 0).take e
    let frac := (fracLSD.dropWhile (· == 0)).reverse.map (· + 48)
    let body := if frac.isEmpty then ipart else ipart ++ (46 :: frac)
    if m < 0 then 45 :: body else body

/-- Simplified model of `pd.to_datetime(value).strftime('%Y-%m-%d')`: an
ISO `YYYY-MM-DD` prefix (optionally followed by a `T` or space and a time
part) is accepted and its date part returned; everything else fails.
Pandas accepts many more formats (and epoch numbers); since the claims
never inspect a date result and the call site guards this with a bare
`except` returning the original value, only totality matters here. -/
def tryParseDate : Val → Option PyStr
  | .vStr s =>
    match s with
    | y1 :: y2 :: y3 :: y4 :: 45 :: m1 :: m2 :: 45 :: d1 :: d2 :: rest =>
      if [y1, y2, y3, y4, m1, m2, d1, d2].all isDigitCode ∧
         1 ≤ 10 * (m1 - 48) + (m2 - 48) ∧ 10 * (m1 - 48) + (m2 - 48) ≤ 12 ∧
         1 ≤ 10 * (d1 - 48) + (d2 - 48) ∧ 10 * (d1 - 48) + (d2 - 48) ≤ 31 ∧
         (rest = [] ∨ rest.head? = some 84 ∨ rest.head? = some 32) then
        some [y1, y2, y3, y4, 45, m1, m2, 45, d1, d2]
      else none
    | _ => none
  | _ => none

deriving instance DecidableEq for Except

/-- `format_value` from `src/listing_display.py` (lines 150-179).  The
`date`, `percent` and `currency` branches are wrapped in `try/except` in
the source and always fall back to the original value; the `text` branch
with the `bedrooms` column hint calls `int(value)` unguarded, which raises
`ValueError` on a non-integer string — modelled as `Except.error`. -/
def format_value (value : Val) (format_type : String) (column_name : Option String) :
    Except String Val :=
  if pdIsna value then .ok value
  else if format_type == "date" then
    match tryParseDate value with
    | some s => .ok (.vStr s)
    | none => .ok value
  else if format_type == "percent" then
    match pyFloat value with
    | some (m, e) => .ok (.vStr (fmtFixed0 (m * 100) e false ++ [37]))
    | none => .ok value
  else if format_type == "currency" then
    match pyFloat value with
    | some (m, e) => .ok (.vStr (36 :: fmtFixed0 m e true))
    | none => .ok value
  else if format_type == "text" then
    if column_name == some "bedrooms" then
      match pyInt value with
      | some n => .ok (.vStr (intCodes n ++ codes "BR"))
      | none => .error "ValueError"
    else .ok (.vStr (pyTitle (pyStrOf value)))
  else .ok value

/-- Column metadata record from `src/listing_display.py` (`ColumnConfig`
TypedDict). -/
structure ColumnConfig where
  name : String
  display : Bool
  is_link : Bool
  format_type : String
  width : Option String
deriving DecidableEq

/-- `create_column_config` from `src/listing_display.py` (lines 12-148):
the ordered registry of column descriptors (Python dicts preserve
insertion order). -/
def create_column_config : List (String × ColumnConfig) :=
  [ ("listing_url", ⟨"Link", true, true, "link", none⟩),
    ("address", ⟨"Address", true, false, "text", none⟩),
    ("zipcode", ⟨"Zip Code", false, false, "text", none⟩),
    ("city", ⟨"City", true, false, "text", none⟩),
    ("bedrooms", ⟨"Type", true, false, "text", none⟩),
    ("home_type", ⟨"Home Type", false, false, "text", none⟩),
    ("fair_market_rent", ⟨"Fair Market Rent", false, false, "currency", none⟩),
    ("base_price", ⟨"Base Price", true, false, "currency", none⟩),
    ("max_legal_rent", ⟨"Max Legal Rent", false, false, "currency", none⟩),
    ("base_price_date", ⟨"Base Price Date", false, false, "date", none⟩),
    ("emergency_peak_price", ⟨"Emergency Peak Price", false, false, "currency", none⟩),
    ("emergency_peak_price_date", ⟨"Emergency Peak Price Date", false, false, "date", none⟩),
    ("latest_price", ⟨"Price", true, false, "currency", none⟩),
    ("latest_price_date", ⟨"Latest Price Date", false, false, "date", none⟩),
    ("peak_price_vs_fmr", ⟨"Peak Price vs FMR", false, false, "percent", none⟩),
    ("base_vs_peak_price", ⟨"Base vs Peak Price", false, false, "percent", none⟩),
    ("base_vs_latest_price", ⟨"% Increase", true, false, "percent", none⟩),
    ("first_gouged_price", ⟨"First Gouged Price", false, false, "currency", none⟩),
    ("first_gouged_date", ⟨"First Gouged Date", false, false, "date", none⟩) ]

/-- The visible (`display = True`) field names of a registry, in registry
order; this is the `display_columns` list comprehension of
`src/listing_display.py` line 184 and `src/app.py` line 304. -/
def visibleCols (cfgs : List (String × ColumnConfig)) : List String :=
  (cfgs.filter (fun p => p.2.display)).map (fun p => p.1)

/-- A pandas `DataFrame`: ordered column names plus one association list
per row.  A key missing from a row is an absent (`NaN`) cell. -/
structure DataFrame where
  cols : List String
  rows : List (List (String × Val))
deriving DecidableEq

/-- Cell access: a key missing from the row dictionary is `NaN`. -/
def getCell (row : List (String × Val)) (c : String) : Val :=
  match row.lookup c with
  | some v => v
  | none => .vNull

/-- `pd.DataFrame(list_of_dicts)`: the columns are the record keys in
order of first appearance. -/
def dfOfRecords (records : List (List (String × Val))) : DataFrame :=
  ⟨records.foldl (fun acc r => r.foldl (fun a p => if a.contains p.1 then a else a ++ [p.1]) acc) [],
   records⟩

/-- `df[cs]` column selection: raises `KeyError` when any requested column
is missing, otherwise projects each row onto the requested columns. -/
def selectCols (df : DataFrame) (cs : List String) : Except String DataFrame :=
  if cs.all (fun c => df.cols.contains c) then
    .ok ⟨cs, df.rows.map (fun r => cs.map (fun c => (c, getCell r c)))⟩
  else .error "KeyError"

/-- `df[c]` single-column read: `KeyError` when absent. -/
def getColumn (df : DataFrame) (c : String) : Except String (List Val) :=
  if df.cols.contains c then .ok (df.rows.map (fun r => getCell r c))
  else .error "KeyError"

/-- `df[c] = vals` column assignment: overwrites an existing column in
place, appends a new column otherwise. -/
def setColumn (df : DataFrame) (c : String) (vals : List Val) : DataFrame :=
  if df.cols.contains c then
    ⟨df.cols, List.zipWith (fun r v => r.map (fun p => if p.1 == c then (p.1, v) else p)) df.rows vals⟩
  else
    ⟨df.cols ++ [c], List.zipWith (fun r v => r ++ [(c, v)]) df.rows vals⟩

/-- `df.drop(columns=[c])`. -/
def dropCol (df : DataFrame) (c : String) : DataFrame :=
  ⟨df.cols.erase c, df.rows.map (fun r => r.filter (fun p => !(p.1 == c)))⟩

/-- The `.str` accessor composition `col.str.lower().str.title()`: string
cells are transformed, everything else (including absent cells) becomes
`NaN`. -/
def strLowerTitleCell : Val → Val
  | .vStr s => .vStr (pyTitle (pyLower s))
  | _ => .vNull

/-- Element-wise series expression
`address.str.lower().str.title() + ", " + city.str.lower().str.title()`
of `src/listing_display.py` line 188: `NaN` on either side propagates. -/
def combineAddrCity (a c : Val) : Val :=
  match strLowerTitleCell a, strLowerTitleCell c with
  | .vStr x, .vStr y => .vStr (x ++ codes ", " ++ y)
  | _, _ => .vNull

/-- One cell of the formatting loop of `src/listing_display.py` lines
194-199: `column_config[col]` lookup (`KeyError` when absent), then
`format_value` unless the column is link-typed. -/
def formatCell (cfgs : List (String × ColumnConfig)) (c : String) (v : Val) :
    Except String Val :=
  match cfgs.lookup c with
  | none => .error "KeyError"
  | some cfg =>
    if cfg.format_type == "link" then .ok v
    else format_value v cfg.format_type (some c)

/-- Format every cell of one row. -/
def formatRowCells (cfgs : List (String × ColumnConfig)) :
    List (String × Val) → Except String (List (String × Val))
  | [] => .ok []
  | (c, v) :: rest =>
    match formatCell cfgs c v, formatRowCells cfgs rest with
    | .ok v2, .ok r2 => .ok ((c, v2) :: r2)
    | .error e, _ => .error e
    | _, .error e => .error e

/-- Format every row of the frame. -/
def formatRows (cfgs : List (String × ColumnConfig)) :
    List (List (String × Val)) → Except String (List (List (String × Val)))
  | [] => .ok []
  | r :: rest =>
    match formatRowCells cfgs r, formatRows cfgs rest with
    | .ok r2, .ok rs2 => .ok (r2 :: rs2)
    | .error e, _ => .error e
    | _, .error e => .error e

/-- The per-column formatting pass (`src/listing_display.py` lines
194-199).  The source iterates column-by-column while this model iterates
row-by-row; both succeed on exactly the same frames and produce the same
cells, since each cell is formatted independently. -/
def applyFormat (df : DataFrame) (cfgs : List (String × ColumnConfig)) :
    Except String DataFrame :=
  match formatRows cfgs df.rows with
  | .ok rs => .ok ⟨df.cols, rs⟩
  | .error e => .error e

/-- `if "city" in df_display.columns: df_display = df_display.drop(columns=["city"])`
(`src/listing_display.py` lines 190-192). -/
def dropIfCity (d : DataFrame) : DataFrame :=
  if d.cols.contains "city" then dropCol d "city" else d

/-- Steps of `display_gouges_table` after column selection: read the
`address` and `city` columns (each a `KeyError` when absent, address
first), overwrite `address` with the combined series, drop `city` when
present, then run the formatting pass. -/
def displayAfterSelect (d0 : DataFrame) (cfgs : List (String × ColumnConfig)) :
    Except String DataFrame :=
  match getColumn d0 "address", getColumn d0 "city" with
  | .ok avals, .ok cvals =>
    applyFormat
      (dropIfCity (setColumn d0 "address" (List.zipWith combineAddrCity avals cvals))) cfgs
  | .error e, _ => .error e
  | _, .error e => .error e

/-- `display_gouges_table` from `src/listing_display.py` (lines 181-232),
up to (but not including) the final `st.dataframe` rendering call: select
the visible columns, merge `address` and `city` into the `address` column,
drop `city`, then format every non-link column.  The result is the frame
handed to the renderer. -/
def display_gouges_table (df : DataFrame) (cfgs : List (String × ColumnConfig)) :
    Except String DataFrame :=
  match selectCols df (visibleCols cfgs) with
  | .error e => .error e
  | .ok d0 => displayAfterSelect d0 cfgs

/-- One GeoJSON feature's properties as used by the table path of
`src/map_display.py`: the `region` identifier and the `gouged_listings`
count.  Geometry and any further properties are never read by
`prepare_table_data` (the `groupby` keeps only these two columns and the
final display selects exactly them), so they are not modelled.  Region
identifiers are modelled as their string form; only the city branch ever
inspects them. -/
structure Feature where
  region : PyStr
  gouged_listings : Int
deriving DecidableEq

/-- `table_data['region'].str.title()` applied to one row. -/
def titleFeature (f : Feature) : Feature :=
  ⟨pyTitle f.region, f.gouged_listings⟩

/-- Python string comparison `<` (lexicographic on code points); pandas
sorts `groupby` keys with it. -/
def pyStrLtB : PyStr → PyStr → Bool
  | _, [] => false
  | [], _ :: _ => true
  | a :: as, b :: bs => a < b || (a == b && pyStrLtB as bs)

/-- Insert a key into a strictly-ascending list of keys, keeping it
strictly ascending (duplicates collapse): the sorted unique key set of
`groupby(sort=True)`. -/
def insertKey (k : PyStr) : List PyStr → List PyStr
  | [] => [k]
  | x :: xs =>
    if pyStrLtB k x then k :: x :: xs
    else if k = x then x :: xs
    else x :: insertKey k xs

/-- The distinct region keys of a row list, sorted ascending. -/
def keysOf (rows : List Feature) : List PyStr :=
  rows.foldr (fun r acc => insertKey r.region acc) []

/-- Sum of `gouged_listings` over the rows whose region equals `k`. -/
def sumCounts (rows : List Feature) (k : PyStr) : Int :=
  ((rows.filter (fun r => r.region == k)).map (fun r => r.gouged_listings)).sum

/-- `groupby('region', as_index=False)['gouged_listings'].sum()`: one row
per distinct region, keys in ascending order, counts summed. -/
def groupbySum (rows : List Feature) : List Feature :=
  (keysOf rows).map (fun k => ⟨k, sumCounts rows k⟩)

/-- Row comparison used by `sort_values('gouged_listings')`. -/
def featLE (a b : Feature) : Prop := a.gouged_listings ≤ b.gouged_listings

instance : DecidableRel featLE := fun a b => Int.decLe a.gouged_listings b.gouged_listings

instance : IsTotal Feature featLE := ⟨fun a b => Int.le_total a.gouged_listings b.gouged_listings⟩

instance : IsTrans Feature featLE := ⟨fun _ _ _ h1 h2 => le_trans h1 h2⟩

/-- `sort_values('gouged_listings', ascending=False)`: pandas' `nargsort`
computes an ascending stable argsort of the key column and then reverses
the indexer (`indexer[::-1]`).  The ascending stable sort is modelled by
`List.insertionSort` (numpy's introsort is its stable insertion sort for
the small arrays relevant here; for larger arrays the tie order of
`kind='quicksort'` is unspecified, and no theorem below depends on it). -/
def sortDesc (rows : List Feature) : List Feature :=
  (List.insertionSort featLE rows).reverse

/-- `prepare_table_data` from `src/map_display.py` (lines 73-82, textually
duplicated in `src/app.py` lines 131-153).  `pd.DataFrame([])` built from
an empty feature list has no columns at all, so the very first column
access that follows (`table_data['region']` in the city branch,
`table_data.sort_values('gouged_listings', ...)` otherwise) raises
`KeyError`; for a non-empty feature list both columns exist. -/
def prepare_table_data (features : List Feature) (is_city_data : Bool) :
    Except String (List Feature) :=
  if features.isEmpty then .error "KeyError"
  else
    let t := if is_city_data then groupbySum (features.map titleFeature) else features
    .ok (sortDesc t)

/-- `calculate_table_height` from `src/map_display.py` (lines 84-89, same
constants in `src/app.py` lines 21-23 and 155-164):
`min(max(num_rows * 42, 200), 600)`. -/
def calculate_table_height (num_rows : Nat) : Nat :=
  min (max (num_rows * 42) 200) 600

/-- Total `gouged_listings` over a row list. -/
def totalCount (l : List Feature) : Int := (l.map (fun r => r.gouged_listings)).sum

/-- A concrete record set with every visible registry field present
(address and city chosen as in §8.9 of the spec). -/
def dfListings : DataFrame :=
  ⟨["listing_url", "address", "city", "bedrooms", "base_price", "latest_price",
    "base_vs_latest_price"],
   [[("listing_url", .vStr (codes "https://x.example/1")),
     ("address", .vStr (codes "123 main st")),
     ("city", .vStr (codes "los angeles")),
     ("bedrooms", .vNum 2 0),
     ("base_price", .vNum 1000 0),
     ("latest_price", .vNum 2000 0),
     ("base_vs_latest_price", .vNum 1 1)]]⟩

/-- The frame the builder produces from `dfListings`. -/
def dfListingsOut : DataFrame :=
  ⟨["listing_url", "address", "bedrooms", "base_price", "latest_price",
    "base_vs_latest_price"],
   [[("listing_url", .vStr (codes "https://x.example/1")),
     ("address", .vStr (codes "123 Main St, Los Angeles")),
     ("bedrooms", .vStr (codes "2BR")),
     ("base_price", .vStr (codes "$1,000")),
     ("latest_price", .vStr (codes "$2,000")),
     ("base_vs_latest_price", .vStr (codes "10%"))]]⟩

/-! ### Helper lemmas about the string model -/

theorem isAlphaCode_upperCode {n : Nat} (h : isAlphaCode n = true) :
    isAlphaCode (upperCode n) = true := by
  simp only [isAlphaCode, decide_eq_true_eq] at h ⊢
  unfold upperCode
  split <;> omega

theorem isAlphaCode_lowerCode {n : Nat} (h : isAlphaCode n = true) :
    isAlphaCode (lowerCode n) = true := by
  simp only [isAlphaCode, decide_eq_true_eq] at h ⊢
  unfold lowerCode
  split <;> omega

theorem upperCode_upperCode (n : Nat) : upperCode (upperCode n) = upperCode n := by
  unfold upperCode
  split
  · split <;> omega
  · rfl

theorem lowerCode_lowerCode (n : Nat) : lowerCode (lowerCode n) = lowerCode n := by
  unfold lowerCode
  split
  · split <;> omega
  · rfl

theorem pyTitleAux_idem (l : List Nat) :
    ∀ b, pyTitleAux b (pyTitleAux b l) = pyTitleAux b l := by
  induction l with
  | nil => intro b; rfl
  | cons c cs ih =>
    intro b
    by_cases hc : isAlphaCode c = true
    · cases b with
      | false =>
        simp [pyTitleAux, hc, isAlphaCode_upperCode hc, upperCode_upperCode, ih true]
      | true =>
        simp [pyTitleAux, hc, isAlphaCode_lowerCode hc, lowerCode_lowerCode, ih true]
    · rw [Bool.not_eq_true] at hc
      simp [pyTitleAux, hc, ih false]

theorem pyTitle_idem (s : PyStr) : pyTitle (pyTitle s) = pyTitle s :=
  pyTitleAux_idem s false

/-! ### Helper lemmas about sorting and grouping -/

theorem sortDesc_perm (l : List Feature) : List.Perm (sortDesc l) l :=
  (List.reverse_perm _).trans (List.perm_insertionSort featLE l)

theorem sortDesc_totalCount (l : List Feature) : totalCount (sortDesc l) = totalCount l := by
  unfold totalCount
  exact ((sortDesc_perm l).map (fun r => r.gouged_listings)).sum_eq

theorem sortDesc_length (l : List Feature) : (sortDesc l).length = l.length :=
  (sortDesc_perm l).length_eq

theorem sortDesc_sorted (l : List Feature) :
    (sortDesc l).Pairwise (fun a b => b.gouged_listings ≤ a.gouged_listings) := by
  unfold sortDesc
  rw [List.pairwise_reverse]
  exact List.sorted_insertionSort featLE l

theorem mem_insertKey {a k : PyStr} {l : List PyStr} :
    a ∈ insertKey k l ↔ a = k ∨ a ∈ l := by
  induction l with
  | nil => simp [insertKey]
  | cons x xs ih =>
    unfold insertKey
    split
    · simp [List.mem_cons]
    · split
      · rename_i heq
        subst heq
        simp [List.mem_cons]
      · simp only [List.mem_cons, ih]
        tauto

theorem pyStrLtB_irrefl (a : PyStr) : pyStrLtB a a = false := by
  induction a with
  | nil => rfl
  | cons x xs ih => simp [pyStrLtB, ih]

theorem pyStrLtB_trans : ∀ {a b c : PyStr},
    pyStrLtB a b = true → pyStrLtB b c = true → pyStrLtB a c = true := by
  intro a
  induction a with
  | nil =>
    intro b c hab hbc
    cases b with
    | nil => simp [pyStrLtB] at hab
    | cons y ys =>
      cases c with
      | nil => simp [pyStrLtB] at hbc
      | cons z zs => rfl
  | cons x xs ih =>
    intro b c hab hbc
    cases b with
    | nil => simp [pyStrLtB] at hab
    | cons y ys =>
      cases c with
      | nil => simp [pyStrLtB] at hbc
      | cons z zs =>
        simp only [pyStrLtB, Bool.or_eq_true, Bool.and_eq_true, decide_eq_true_eq,
          beq_iff_eq] at hab hbc ⊢
        rcases hab with h1 | ⟨rfl, h1⟩
        · rcases hbc with h2 | ⟨rfl, h2⟩
          · exact Or.inl (Nat.lt_trans h1 h2)
          · exact Or.inl h1
        · rcases hbc with h2 | ⟨rfl, h2⟩
          · exact Or.inl h2
          · exact Or.inr ⟨rfl, ih h1 h2⟩

theorem pyStrLtB_connex : ∀ {a b : PyStr},
    pyStrLtB a b = false → a ≠ b → pyStrLtB b a = true := by
  intro a
  induction a with
  | nil =>
    intro b hab hne
    cases b with
    | nil => exact absurd rfl hne
    | cons y ys => simp [pyStrLtB] at hab
  | cons x xs ih =>
    intro b hab hne
    cases b with
    | nil => rfl
    | cons y ys =>
      simp only [pyStrLtB, Bool.or_eq_true, Bool.and_eq_true, decide_eq_true_eq, beq_iff_eq,
        Bool.or_eq_false_iff, Bool.and_eq_false_iff, decide_eq_false_iff_not] at hab ⊢
      rcases hab with ⟨hlt, h2⟩
      by_cases hxy : x = y
      · subst hxy
        rcases h2 with h2 | h2
        · simp at h2
        · refine Or.inr ⟨rfl, ih h2 ?_⟩
          intro hEq; exact hne (by rw [hEq])
      · exact Or.inl (by omega)

theorem pairwise_insertKey {k : PyStr} {l : List PyStr}
    (h : l.Pairwise (fun x y => pyStrLtB x y = true)) :
    (insertKey k l).Pairwise (fun x y => pyStrLtB x y = true) := by
  induction l with
  | nil => simp [insertKey]
  | cons x xs ih =>
    rw [List.pairwise_cons] at h
    obtain ⟨hx, hxs⟩ := h
    unfold insertKey
    split
    · rename_i hlt
      refine List.Pairwise.cons ?_ (List.Pairwise.cons hx hxs)
      intro b hb
      rcases List.mem_cons.mp hb with rfl | hb2
      · exact hlt
      · exact pyStrLtB_trans hlt (hx b hb2)
    · split
      · exact List.Pairwise.cons hx hxs
      · rename_i hnlt hne
        refine List.Pairwise.cons ?_ (ih hxs)
        intro b hb
        rcases mem_insertKey.mp hb with rfl | hb2
        · exact pyStrLtB_connex (Bool.not_eq_true _ ▸ hnlt) hne
        · exact hx b hb2

theorem keysOf_pairwise (rows : List Feature) :
    (keysOf rows).Pairwise (fun x y => pyStrLtB x y = true) := by
  induction rows with
  | nil => simp [keysOf]
  | cons r rs ih => exact pairwise_insertKey ih

theorem keysOf_nodup (rows : List Feature) : (keysOf rows).Nodup :=
  (keysOf_pairwise rows).imp (fun hlt => by
    intro hEq
    subst hEq
    simp [pyStrLtB_irrefl] at hlt)

theorem mem_keysOf {k : PyStr} {rows : List Feature} :
    k ∈ keysOf rows ↔ k ∈ rows.map Feature.region := by
  induction rows with
  | nil => simp [keysOf]
  | cons r rs ih =>
    show k ∈ insertKey r.region (keysOf rs) ↔ _
    rw [mem_insertKey]
    simp [ih]

theorem totalCount_filter (p : Feature → Bool) (l : List Feature) :
    totalCount (l.filter p) + totalCount (l.filter (fun r => !(p r))) = totalCount l := by
  induction l with
  | nil => simp [totalCount]
  | cons r rs ih =>
    by_cases hp : p r = true
    · simp only [totalCount] at ih
      simp [totalCount, List.filter_cons, hp]
      omega
    · rw [Bool.not_eq_true] at hp
      simp only [totalCount] at ih
      simp [totalCount, List.filter_cons, hp]
      omega

theorem sumCounts_eq_totalCount_filter (rows : List Feature) (k : PyStr) :
    sumCounts rows k = totalCount (rows.filter (fun r => r.region == k)) := rfl

theorem sumCounts_filter_ne {k k' : PyStr} (hne : k' ≠ k) (rows : List Feature) :
    sumCounts (rows.filter (fun r => !(r.region == k))) k' = sumCounts rows k' := by
  unfold sumCounts
  rw [List.filter_filter]
  have hfe : rows.filter (fun a => a.region == k' && !(a.region == k)) =
      rows.filter (fun r => r.region == k') := by
    apply List.filter_congr
    intro r _
    by_cases hr : r.region = k'
    · have hkf : (r.region == k) = false := by
        rw [beq_eq_false_iff_ne, hr]
        exact hne
      simp [hr, hkf, hne]
    · have hkf : (r.region == k') = false := by rw [beq_eq_false_iff_ne]; exact hr
      simp [hkf]
  rw [hfe]

theorem sum_sumCounts : ∀ (keys : List PyStr) (rows : List Feature),
    keys.Nodup → (∀ r ∈ rows, r.region ∈ keys) →
    (keys.map (fun k => sumCounts rows k)).sum = totalCount rows := by
  intro keys
  induction keys with
  | nil =>
    intro rows _ hcov
    cases rows with
    | nil => simp [totalCount]
    | cons r rs => exact absurd (hcov r (by simp)) (by simp)
  | cons k ks ih =>
    intro rows hnd hcov
    rw [List.nodup_cons] at hnd
    obtain ⟨hk, hks⟩ := hnd
    have hmapEq : ks.map (fun k2 => sumCounts rows k2) =
        ks.map (fun k2 => sumCounts (rows.filter (fun r => !(r.region == k))) k2) := by
      apply List.map_congr_left
      intro k2 hk2
      have hne : k2 ≠ k := fun hEq => hk (hEq ▸ hk2)
      exact (sumCounts_filter_ne hne rows).symm
    have hcov2 : ∀ r ∈ rows.filter (fun r => !(r.region == k)), r.region ∈ ks := by
      intro r hr
      rw [List.mem_filter] at hr
      obtain ⟨hrmem, hrne⟩ := hr
      rcases List.mem_cons.mp (hcov r hrmem) with h | h
      · rw [Bool.not_eq_true', beq_eq_false_iff_ne] at hrne
        exact absurd h hrne
      · exact h
    calc (List.map (fun k2 => sumCounts rows k2) (k :: ks)).sum
        = sumCounts rows k + (ks.map (fun k2 => sumCounts rows k2)).sum := by
          simp [List.map_cons, List.sum_cons]
      _ = sumCounts rows k +
            totalCount (rows.filter (fun r => !(r.region == k))) := by
          rw [hmapEq, ih _ hks hcov2]
      _ = totalCount rows := by
          rw [sumCounts_eq_totalCount_filter]
          exact totalCount_filter _ rows

theorem totalCount_groupbySum (rows : List Feature) :
    totalCount (groupbySum rows) = totalCount rows := by
  unfold groupbySum totalCount
  rw [List.map_map]
  have : (fun r => r.gouged_listings) ∘ (fun k => (⟨k, sumCounts rows k⟩ : Feature)) =
      fun k => sumCounts rows k := rfl
  rw [this]
  have hcov : ∀ r ∈ rows, r.region ∈ keysOf rows := by
    intro r hr
    exact mem_keysOf.mpr (List.mem_map.mpr ⟨r, hr, rfl⟩)
  exact sum_sumCounts (keysOf rows) rows (keysOf_nodup rows) hcov

theorem mem_groupbySum {r : Feature} {rows : List Feature} (h : r ∈ groupbySum rows) :
    r.region ∈ rows.map Feature.region ∧ r.gouged_listings = sumCounts rows r.region := by
  unfold groupbySum at h
  rcases List.mem_map.mp h with ⟨k, hkmem, rfl⟩
  exact ⟨mem_keysOf.mp hkmem, rfl⟩

/-- Unfolding of a successful `prepare_table_data` call. -/
theorem prepare_ok {features : List Feature} {mode : Bool} {rows : List Feature}
    (h : prepare_table_data features mode = .ok rows) :
    rows = sortDesc (if mode then groupbySum (features.map titleFeature) else features) := by
  unfold prepare_table_data at h
  by_cases hemp : features.isEmpty
  · rw [if_pos hemp] at h
    exact Except.noConfusion h
  · rw [if_neg hemp] at h
    exact (Except.ok.inj h).symm

/-! ### Helper lemmas about the listing-table builder -/

theorem selectCols_ok_cols {df : DataFrame} {cs : List String} {d : DataFrame}
    (h : selectCols df cs = .ok d) : d.cols = cs := by
  unfold selectCols at h
  by_cases hall : cs.all (fun c => df.cols.contains c) = true
  · rw [if_pos hall] at h
    rw [← Except.ok.inj h]
  · rw [if_neg hall] at h
    exact Except.noConfusion h

theorem applyFormat_ok_cols {df : DataFrame} {cfgs : List (String × ColumnConfig)}
    {res : DataFrame} (h : applyFormat df cfgs = .ok res) : res.cols = df.cols := by
  unfold applyFormat at h
  cases hrows : formatRows cfgs df.rows with
  | ok rs =>
    rw [hrows] at h
    rw [← Except.ok.inj h]
  | error e =>
    rw [hrows] at h
    exact Except.noConfusion h

theorem setColumn_cols_of_contains {df : DataFrame} {c : String} (vals : List Val)
    (h : df.cols.contains c = true) : (setColumn df c vals).cols = df.cols := by
  unfold setColumn
  rw [if_pos h]

theorem dropCol_cols (df : DataFrame) (c : String) : (dropCol df c).cols = df.cols.erase c := rfl

/-- Claim C8 (amended): the column set of any successful run of the
listing-table builder with the repository's registry equals the visible
registry fields with the standalone `city` column removed (it is merged
into `address`); a visible field absent from the whole record set makes
the builder raise `KeyError` instead of being dropped, and a field absent
from an individual record is an absent cell, not an error. -/
theorem display_gouges_table_ok_cols (df res : DataFrame)
    (h : display_gouges_table df create_column_config = .ok res) :
    res.cols = ["listing_url", "address", "bedrooms", "base_price", "latest_price",
      "base_vs_latest_price"] := by
  unfold display_gouges_table at h
  split at h
  · exact Except.noConfusion h
  · rename_i d0 hsel
    have hd0 : d0.cols = visibleCols create_column_config := selectCols_ok_cols hsel
    unfold displayAfterSelect at h
    split at h
    · rename_i avals cvals hga hgc
      have hcontains : d0.cols.contains "address" = true := by
        rw [hd0]; decide
      have h1cols : (setColumn d0 "address" (List.zipWith combineAddrCity avals cvals)).cols
          = d0.cols := setColumn_cols_of_contains _ hcontains
      have hcity : (setColumn d0 "address"
          (List.zipWith combineAddrCity avals cvals)).cols.contains "city" = true := by
        rw [h1cols, hd0]; decide
      have hres := applyFormat_ok_cols h
      rw [hres]
      unfold dropIfCity
      rw [if_pos hcity, dropCol_cols, h1cols, hd0]
      decide
    · exact Except.noConfusion h
    · exact Except.noConfusion h

/-! ### Claim theorems -/

/-- Claim C1 counterexample: `format_value` is not total — in the `text`
branch with the `bedrooms` column hint, the unguarded `int(value)` raises
`ValueError` on the non-numeric string "abc". -/
theorem format_value_bedrooms_raises :
    format_value (.vStr (codes "abc")) "text" (some "bedrooms") = .error "ValueError" := by
  decide

/-- Claim C1 (amended): `format_value` returns a value for every input
value, format type and column hint, except that the `text` branch with the
`bedrooms` hint requires the value to be absent or convertible by
`int(...)`; every other branch falls back to the original value on
failure. -/
theorem format_value_total_amended (v : Val) (ft : String) (c : Option String)
    (h : ft = "text" → c = some "bedrooms" → pdIsna v = true ∨ (pyInt v).isSome = true) :
    ∃ r, format_value v ft c = .ok r := by
  unfold format_value
  by_cases hna : pdIsna v = true
  · rw [if_pos hna]
    exact ⟨v, rfl⟩
  · rw [if_neg hna]
    by_cases hd : (ft == "date") = true
    · rw [if_pos hd]
      cases tryParseDate v with
      | some s => exact ⟨_, rfl⟩
      | none => exact ⟨v, rfl⟩
    · rw [if_neg hd]
      by_cases hp : (ft == "percent") = true
      · rw [if_pos hp]
        cases pyFloat v with
        | some me => exact ⟨_, rfl⟩
        | none => exact ⟨v, rfl⟩
      · rw [if_neg hp]
        by_cases hcu : (ft == "currency") = true
        · rw [if_pos hcu]
          cases pyFloat v with
          | some me => exact ⟨_, rfl⟩
          | none => exact ⟨v, rfl⟩
        · rw [if_neg hcu]
          by_cases ht : (ft == "text") = true
          · rw [if_pos ht]
            by_cases hb : (c == some "bedrooms") = true
            · rw [if_pos hb]
              have hft : ft = "text" := by simpa using ht
              have hcb : c = some "bedrooms" := by simpa using hb
              rcases h hft hcb with hcon | hsome
              · exact absurd hcon hna
              · cases hpi : pyInt v with
                | some n =>
                  exact ⟨.vStr (intCodes n ++ codes "BR"), rfl⟩
                | none =>
                  rw [hpi] at hsome
                  simp at hsome
            · rw [if_neg hb]
              exact ⟨_, rfl⟩
          · rw [if_neg ht]
            exact ⟨_, rfl⟩

/-- Claim C1 witness: the amended totality theorem applied at a concrete
non-numeric string under the `percent` format. -/
theorem format_value_total_amended_witness :
    ∃ r, format_value (.vStr (codes "hi")) "percent" none = .ok r :=
  format_value_total_amended (.vStr (codes "hi")) "percent" none
    (fun hft => absurd hft (by decide))

/-- Claim C2 counterexample: an empty feature collection does not yield an
empty result — `prepare_table_data` raises in both merge modes. -/
theorem prepare_table_data_empty_not_ok :
    prepare_table_data [] false ≠ .ok [] ∧ prepare_table_data [] true ≠ .ok [] := by
  decide

/-- Claim C2 (amended): on an empty feature collection
`prepare_table_data` raises `KeyError` in both merge modes —
`pd.DataFrame([])` has no columns, so the first column access fails. -/
theorem prepare_table_data_empty_raises :
    prepare_table_data [] false = .error "KeyError" ∧
    prepare_table_data [] true = .error "KeyError" := by
  decide

/-- Claim C3 counterexample: `format_value(1234.5, "currency")` is
"$1,234", not the claimed "$1,235" — CPython's `.0f` formatting rounds
ties to even. -/
theorem format_value_currency_not_1235 :
    format_value (.vNum 12345 1) "currency" none = .ok (.vStr (codes "$1,234")) ∧
    Val.vStr (codes "$1,234") ≠ Val.vStr (codes "$1,235") := by
  decide

/-- Claim C3 (amended): on the spec's well-formed inputs the formatter
returns `$1,234` for `1234.5` under `currency` (ties-to-even rounding,
comma separated, no decimals) and `80%` for `0.8032` under `percent`. -/
theorem format_value_currency_percent_values :
    format_value (.vNum 12345 1) "currency" none = .ok (.vStr (codes "$1,234")) ∧
    format_value (.vNum 8032 4) "percent" none = .ok (.vStr (codes "80%")) := by
  decide

/-- Claim C4 counterexample: the tie-break is not stable — two features
with equal counts come out in reversed input order, because pandas'
descending sort reverses an ascending argsort. -/
theorem prepare_table_data_ties_reversed :
    prepare_table_data [⟨codes "A", 5⟩, ⟨codes "B", 5⟩] false =
      .ok [⟨codes "B", 5⟩, ⟨codes "A", 5⟩] ∧
    ([⟨codes "B", 5⟩, ⟨codes "A", 5⟩] : List Feature) ≠
      [⟨codes "A", 5⟩, ⟨codes "B", 5⟩] := by
  decide

/-- Claim C4 (amended): every successful aggregation output is sorted by
`gouged_listings` in descending order (adjacent rows are non-increasing);
ties appear in reversed input order rather than original order. -/
theorem prepare_table_data_sorted_desc (features : List Feature) (mode : Bool)
    (rows : List Feature) (h : prepare_table_data features mode = .ok rows)
    (i : Nat) (hi : i + 1 < rows.length) :
    (rows.get ⟨i + 1, hi⟩).gouged_listings ≤
      (rows.get ⟨i, Nat.lt_of_succ_lt hi⟩).gouged_listings := by
  have hrows := prepare_ok h
  subst hrows
  have hp := sortDesc_sorted (if mode then groupbySum (features.map titleFeature) else features)
  rw [List.pairwise_iff_getElem] at hp
  have hij := hp i (i + 1) (Nat.lt_of_succ_lt hi) hi (Nat.lt_succ_self i)
  simpa [List.get_eq_getElem] using hij

/-- Claim C4 witness: the descending-order theorem applied to a concrete
two-feature collection. -/
theorem prepare_table_data_sorted_desc_witness :
    (([⟨codes "B", 7⟩, ⟨codes "A", 3⟩] : List Feature).get ⟨1, by decide⟩).gouged_listings ≤
      (([⟨codes "B", 7⟩, ⟨codes "A", 3⟩] : List Feature).get ⟨0, by decide⟩).gouged_listings :=
  prepare_table_data_sorted_desc [⟨codes "A", 3⟩, ⟨codes "B", 7⟩] false
    [⟨codes "B", 7⟩, ⟨codes "A", 3⟩] (by decide) 0 (by decide)

/-- Claim C5: with the merge flag set, aggregation title-cases every
region, groups by the normalized name and sums the counts; in particular
the two-feature Van Nuys collection aggregates to a single row with count
5.  Every output row's count is the sum of the title-cased input rows
sharing its region, and its region is a title-cased input region. -/
theorem prepare_table_data_city_merge :
    (prepare_table_data [⟨codes "Van Nuys", 3⟩, ⟨codes "van nuys", 2⟩] true =
      .ok [⟨codes "Van Nuys", 5⟩]) ∧
    ∀ features rows, prepare_table_data features true = .ok rows →
      ∀ r ∈ rows, r.region ∈ (features.map titleFeature).map Feature.region ∧
        r.gouged_listings = sumCounts (features.map titleFeature) r.region := by
  constructor
  · decide
  · intro features rows h r hr
    have hrows := prepare_ok h
    rw [if_pos rfl] at hrows
    subst hrows
    have hr2 : r ∈ groupbySum (features.map titleFeature) :=
      ((sortDesc_perm _).mem_iff).mp hr
    exact mem_groupbySum hr2

/-- Claim C5 witness: the merge theorem applied to the concrete Van Nuys
collection and its single output row. -/
theorem prepare_table_data_city_merge_witness :
    (⟨codes "Van Nuys", 5⟩ : Feature).region ∈
      (([⟨codes "Van Nuys", 3⟩, ⟨codes "van nuys", 2⟩] : List Feature).map titleFeature).map
        Feature.region ∧
    (⟨codes "Van Nuys", 5⟩ : Feature).gouged_listings =
      sumCounts (([⟨codes "Van Nuys", 3⟩, ⟨codes "van nuys", 2⟩] : List Feature).map
        titleFeature) (⟨codes "Van Nuys", 5⟩ : Feature).region :=
  prepare_table_data_city_merge.2 [⟨codes "Van Nuys", 3⟩, ⟨codes "van nuys", 2⟩]
    [⟨codes "Van Nuys", 5⟩] (by decide) ⟨codes "Van Nuys", 5⟩ (by decide)

/-- Claim C6: every successful aggregation conserves the total count (the
sum of `gouged_listings` over the output equals the sum over the input,
for both merge modes), and without merging the output has exactly one row
per input feature. -/
theorem prepare_table_data_conserves (features : List Feature) (mode : Bool)
    (rows : List Feature) (h : prepare_table_data features mode = .ok rows) :
    totalCount rows = totalCount features ∧
      (mode = false → rows.length = features.length) := by
  have hrows := prepare_ok h
  subst hrows
  cases mode with
  | false =>
    rw [if_neg (by decide)]
    exact ⟨sortDesc_totalCount features, fun _ => sortDesc_length features⟩
  | true =>
    rw [if_pos (by decide)]
    refine ⟨?_, fun hft => absurd hft (by decide)⟩
    rw [sortDesc_totalCount, totalCount_groupbySum]
    unfold totalCount
    rw [List.map_map]
    rfl

/-- Claim C6 witness: conservation applied to a concrete two-feature
collection without merging. -/
theorem prepare_table_data_conserves_witness :
    totalCount [⟨codes "B", 7⟩, ⟨codes "A", 3⟩] =
      totalCount [⟨codes "A", 3⟩, ⟨codes "B", 7⟩] ∧
    (false = false → ([⟨codes "B", 7⟩, ⟨codes "A", 3⟩] : List Feature).length =
      ([⟨codes "A", 3⟩, ⟨codes "B", 7⟩] : List Feature).length) :=
  prepare_table_data_conserves [⟨codes "A", 3⟩, ⟨codes "B", 7⟩] false
    [⟨codes "B", 7⟩, ⟨codes "A", 3⟩] (by decide)

/-- Claim C7: the layout height is the row count times 42 clamped to
[200, 600]; it is 200 at zero rows, always within the bounds, and
monotonically non-decreasing in the row count. -/
theorem calculate_table_height_spec :
    (∀ n, calculate_table_height n = min (max (n * 42) 200) 600) ∧
    calculate_table_height 0 = 200 ∧
    (∀ n, 200 ≤ calculate_table_height n ∧ calculate_table_height n ≤ 600) ∧
    (∀ m n, m ≤ n → calculate_table_height m ≤ calculate_table_height n) := by
  refine ⟨fun n => rfl, rfl, fun n => ?_, fun m n hmn => ?_⟩
  · unfold calculate_table_height
    omega
  · unfold calculate_table_height
    have hmul : m * 42 ≤ n * 42 := Nat.mul_le_mul_right _ hmn
    omega

/-- Claim C7 witness: monotonicity of the height function at a concrete
pair of row counts. -/
theorem calculate_table_height_spec_witness :
    calculate_table_height 3 ≤ calculate_table_height 20 :=
  calculate_table_height_spec.2.2.2 3 20 (by decide)

/-- Claim C8 counterexample: the built table's column set is not the
visible registry fields intersected with the fields present in the
records — `city` is visible and present but absent from the output. -/
theorem display_gouges_table_city_dropped :
    (display_gouges_table dfListings create_column_config).map DataFrame.cols =
      .ok ["listing_url", "address", "bedrooms", "base_price", "latest_price",
        "base_vs_latest_price"] ∧
    "city" ∈ visibleCols create_column_config ∧
    "city" ∈ dfListings.cols ∧
    "city" ∉ ["listing_url", "address", "bedrooms", "base_price", "latest_price",
      "base_vs_latest_price"] := by
  decide

/-- Claim C8 witness: the column-set theorem applied to the concrete
record set `dfListings`. -/
theorem display_gouges_table_ok_cols_witness :
    dfListingsOut.cols = ["listing_url", "address", "bedrooms", "base_price",
      "latest_price", "base_vs_latest_price"] :=
  display_gouges_table_ok_cols dfListings dfListingsOut (by decide)

/-- Claim C9: from a record with address "123 main st" and city
"los angeles" the builder synthesizes the single display value
"123 Main St, Los Angeles" in the address column and emits no city
column. -/
theorem display_gouges_table_address_city_merge :
    (display_gouges_table dfListings create_column_config).map
        (fun d => (d.rows.map (fun r => getCell r "address"), d.cols.contains "city")) =
      .ok ([.vStr (codes "123 Main St, Los Angeles")], false) := by
  decide

/-- Claim C10: formatting a string value as `text` (with any column hint
other than `bedrooms`) is idempotent — a second application of the
formatter leaves the title-cased result unchanged. -/
theorem format_value_text_idem (s : PyStr) (c : Option String)
    (h : c ≠ some "bedrooms") :
    (format_value (.vStr s) "text" c).bind (fun v => format_value v "text" c) =
      format_value (.vStr s) "text" c := by
  have hc : (c == some "bedrooms") = false := beq_eq_false_iff_ne.mpr h
  have h1 : format_value (.vStr s) "text" c = .ok (.vStr (pyTitle s)) := by
    unfold format_value
    simp [pdIsna, hc, pyStrOf]
  have h2 : format_value (.vStr (pyTitle s)) "text" c = .ok (.vStr (pyTitle s)) := by
    unfold format_value
    simp [pdIsna, hc, pyStrOf, pyTitle_idem]
  rw [h1]
  simpa [Except.bind] using h2

/-- Claim C10 witness: text-format idempotence at a concrete string and
column hint. -/
theorem format_value_text_idem_witness :
    (format_value (.vStr (codes "van nuys")) "text" (some "address")).bind
        (fun v => format_value v "text" (some "address")) =
      format_value (.vStr (codes "van nuys")) "text" (some "address") :=
  format_value_text_idem (codes "van nuys") (some "address") (by decide)
